import Mathlib

/-!
Verification of the text-derivation core of a student productivity backend
(`main.py`).  Python strings are modelled as Lean `String` (a wrapper around
`List Char`, matching Python's code-point semantics for slicing and length).
Python `datetime` values are modelled as integers measured in days, so
`timedelta(days=1)` is the integer `1`.  The external natural-language date
parser (`dateutil.parser.parse`) is modelled as an oracle
`parse : String → Option Int`, where `none` stands for a parse exception.
-/

/-- Python `str.isspace` characters relevant to `str.strip()` / `str.split()`. -/
def pyIsSpace (c : Char) : Bool :=
  c == ' ' || c == '\t' || c == '\n' || c == '\r' || c == '\x0b' || c == '\x0c'

/-- Python `s[:k]` for non-negative `k` (slices by code points). -/
def pyTake (s : String) (k : Nat) : String :=
  ⟨s.data.take k⟩

/-- Python `s.strip()` (remove leading and trailing whitespace). -/
def pyStrip (s : String) : String :=
  ⟨((s.data.dropWhile pyIsSpace).reverse.dropWhile pyIsSpace).reverse⟩

/-- Python `s.strip(cs)` (remove leading and trailing characters drawn from `cs`). -/
def stripChars (cs : List Char) (s : String) : String :=
  ⟨((s.data.dropWhile (fun c => cs.contains c)).reverse.dropWhile
      (fun c => cs.contains c)).reverse⟩

/-- Python `s.lower()` (ASCII case folding, which covers every keyword used). -/
def lower (s : String) : String :=
  ⟨s.data.map Char.toLower⟩

/-- Does `needle` occur at the head of `hay`? -/
def listStarts : List Char → List Char → Bool
  | [], _ => true
  | _ :: _, [] => false
  | c :: cs, d :: ds => c == d && listStarts cs ds

/-- Does `needle` occur anywhere in `hay`? -/
def listContains (needle : List Char) : List Char → Bool
  | [] => needle.isEmpty
  | d :: ds => listStarts needle (d :: ds) || listContains needle ds

/-- Python `needle in hay` for strings (substring containment). -/
def pyIn (needle hay : String) : Bool :=
  listContains needle.data hay.data

/-- Python `pre + rest` starts-with test, used to recognise template steps. -/
def strStarts (pre s : String) : Bool :=
  listStarts pre.data s.data

/-- Accumulator for `wordsAux`. -/
def wordsAux : List Char → List Char → List String
  | [], acc => if acc.isEmpty then [] else [⟨acc.reverse⟩]
  | c :: rest, acc =>
    if pyIsSpace c then
      if acc.isEmpty then wordsAux rest []
      else ⟨acc.reverse⟩ :: wordsAux rest []
    else wordsAux rest (c :: acc)

/-- Python `s.split()` with no argument: maximal non-whitespace runs. -/
def pySplit (s : String) : List String :=
  wordsAux s.data []

/-- State of the sentence splitter: completed segments (reversed), the current
segment (reversed), and whether we are inside a separating whitespace run. -/
structure SentSt where
  segs : List (List Char)
  acc : List Char
  gap : Bool

/-- One step of `re.split(r"(?<=[.!?])\s+", text)`: a maximal whitespace run
immediately preceded by `.`, `!` or `?` separates segments. -/
def sentStep (st : SentSt) (c : Char) : SentSt :=
  if st.gap then
    if pyIsSpace c then st
    else { segs := st.segs, acc := [c], gap := false }
  else
    match st.acc with
    | p :: _ =>
      if pyIsSpace c && (p == '.' || p == '!' || p == '?') then
        { segs := st.acc.reverse :: st.segs, acc := [], gap := true }
      else { st with acc := c :: st.acc }
    | [] => { st with acc := c :: st.acc }

/-- Python `re.split(r"(?<=[.!?])\s+", text)`. -/
def splitSentences (text : String) : List String :=
  let st := text.data.foldl sentStep ⟨[], [], false⟩
  ((st.acc.reverse :: st.segs).reverse).map (fun l => ⟨l⟩)

/-- State of the newline-run splitter. -/
structure RunSt where
  segs : List (List Char)
  acc : List Char
  gap : Bool

/-- One step of `re.split(r"\n+", text)`. -/
def nlStep (st : RunSt) (c : Char) : RunSt :=
  if c == '\n' then
    if st.gap then st
    else { segs := st.acc.reverse :: st.segs, acc := [], gap := true }
  else
    { segs := st.segs, acc := c :: st.acc, gap := false }

/-- Python `re.split(r"\n+", text)`. -/
def splitNewlineRuns (text : String) : List String :=
  let st := text.data.foldl nlStep ⟨[], [], false⟩
  ((st.acc.reverse :: st.segs).reverse).map (fun l => ⟨l⟩)

/-- Python `text.splitlines()` restricted to the newline forms that occur in
plain text: `\n`, `\r` and `\r\n` (no trailing empty line). -/
def splitlinesAux : List Char → List Char → List String
  | [], acc => if acc.isEmpty then [] else [⟨acc.reverse⟩]
  | '\r' :: '\n' :: rest, acc => (⟨acc.reverse⟩ : String) :: splitlinesAux rest []
  | c :: rest, acc =>
    if c == '\n' || c == '\r' then (⟨acc.reverse⟩ : String) :: splitlinesAux rest []
    else splitlinesAux rest (c :: acc)

/-- Python `text.splitlines()`. -/
def splitlines (text : String) : List String :=
  splitlinesAux text.data []

/-- Python `" ".join(ws)`. -/
def joinSp : List String → String
  | [] => ""
  | [w] => w
  | w :: ws => w ++ " " ++ joinSp ws

/-! ## Data model and heuristics from `main.py` -/

/-- Output of `_simple_summarize`. -/
structure SummaryOut where
  content : String
  key_points : List String
  reading_time_min : Nat
deriving DecidableEq

/-- The keyword list of `_simple_summarize`. -/
def summaryKeywords : List String :=
  ["important", "key", "therefore", "defines", "theorem", "proof", "exam",
   "result", "conclusion"]

/-- First selection loop of `_simple_summarize`: sentences containing an
academic keyword, in order, stopping once `maxS` are collected. -/
def firstPass (maxS : Nat) : List String → List String → List String
  | [], acc => acc
  | s :: rest, acc =>
    if maxS ≤ acc.length then acc
    else if summaryKeywords.any (fun k => pyIn k (lower s)) then
      firstPass maxS rest (acc ++ [s])
    else firstPass maxS rest acc

/-- Second selection loop of `_simple_summarize`: fill remaining slots with
sentences not already chosen, in order. -/
def secondPass (maxS : Nat) : List String → List String → List String
  | [], acc => acc
  | s :: rest, acc =>
    let acc2 := if s ∈ acc then acc else acc ++ [s]
    if maxS ≤ acc2.length then acc2 else secondPass maxS rest acc2

/-- `_simple_summarize(text, max_sentences)` from `main.py`. -/
def _simple_summarize (text : String) (max_sentences : Nat) : SummaryOut :=
  let sentences := ((splitSentences (pyStrip text)).map pyStrip).filter (fun s => s ≠ "")
  let kp1 := firstPass max_sentences sentences []
  let kp := if kp1.length < max_sentences then secondPass max_sentences sentences kp1 else kp1
  { content := joinSp (kp.take max_sentences),
    key_points := (kp.take max_sentences).map
      (fun p => if p.length ≤ 200 then p else pyTake p 197 ++ "..."),
    reading_time_min := max 1 ((pySplit text).length / 180) }

/-- The keyword list of `_make_exam_notes`. -/
def noteKeywords : List String :=
  ["definition", "formula", "step", "theorem", "law", "property", "example:"]

/-- Per-line selection of `_make_exam_notes`: keep a stripped line on a
keyword hit or when it has at most 12 words. -/
def noteStep (acc : List String) (l : String) : List String :=
  if noteKeywords.any (fun k => pyIn k (lower l)) then acc ++ [l]
  else if (pySplit l).length ≤ 12 then acc ++ [l]
  else acc

/-- The line loop of `_make_exam_notes`; the stop test runs at the end of
every non-blank iteration, as in the code. -/
def notesLoop (maxP : Nat) : List String → List String → List String
  | [], acc => acc
  | line :: rest, acc =>
    let l := stripChars [' ', '-', '•', '\t'] line
    if l = "" then notesLoop maxP rest acc
    else if maxP ≤ (noteStep acc l).length then noteStep acc l
    else notesLoop maxP rest (noteStep acc l)

/-- `_make_exam_notes(text, max_points)` from `main.py`. -/
def _make_exam_notes (text : String) (max_points : Nat) : List String :=
  let bullets := notesLoop max_points (splitNewlineRuns text) []
  let bullets2 := if bullets = [] then (splitSentences text).take max_points else bullets
  bullets2.map (fun b => pyTake b 180 ++ (if 180 < b.length then "..." else ""))

/-- A flashcard as produced by `_generate_flashcards`. -/
structure Card where
  question : String
  answer : String
deriving DecidableEq

/-- Python `words.index(x)` (first index of `x`; callers guard membership). -/
def wordIndex (x : String) : List String → Nat
  | [] => 0
  | y :: ys => if y = x then 0 else wordIndex x ys + 1

/-- The per-sentence part of `_generate_flashcards`: a sentence with at least
6 words containing a standalone "is"/"are" is split at the first copula into a
subject and a description; a card results when both halves are non-empty. -/
def sentenceCard (s : String) : Option Card :=
  let words := pySplit s
  if 6 ≤ words.length ∧ ("is" ∈ words ∨ "are" ∈ words) then
    let idx := if "is" ∈ words then wordIndex "is" words else wordIndex "are" words
    let subject := stripChars [',', ' ', '.'] (joinSp (words.take idx))
    let description := pyStrip (joinSp (words.drop (idx + 1)))
    if subject ≠ "" ∧ description ≠ "" then
      some ⟨pyTake ("What is " ++ subject ++ "?") 180, pyTake description 300⟩
    else none
  else none

/-- One iteration of the sentence loop of `_generate_flashcards`. -/
def cardStep (cards : List Card) (s : String) : List Card :=
  match sentenceCard s with
  | some c => cards ++ [c]
  | none => cards

/-- The sentence loop of `_generate_flashcards`, stopping once `n` cards are
collected (the stop test runs at the end of every iteration, as in the code). -/
def cardLoop (n : Nat) : List String → List Card → List Card
  | [], cards => cards
  | s :: rest, cards =>
    if n ≤ (cardStep cards s).length then cardStep cards s
    else cardLoop n rest (cardStep cards s)

/-- The generic filler card with 1-based index `i + 1`. -/
def mkFiller (i : Nat) : Card :=
  ⟨"Key point " ++ toString (i + 1) ++ "?", "Review your notes for this topic."⟩

/-- `_generate_flashcards(text, n)` from `main.py` (requested counts are
non-negative, as at every call site). -/
def _generate_flashcards (text : String) (n : Nat) : List Card :=
  let sentences := splitSentences text
  let cards := cardLoop n sentences []
  let padded :=
    if cards.length < n then cards ++ (List.range (n - cards.length)).map mkFiller
    else cards
  padded.take n

/-- A task candidate as produced by `_extract_tasks_and_deadlines`. -/
structure TaskRec where
  title : String
  due_date : Option Int
  status : String
  priority : String
deriving DecidableEq

/-- The action-verb list of `_extract_tasks_and_deadlines`. -/
def taskVerbs : List String :=
  ["submit", "finish", "complete", "read", "solve", "revise", "review",
   "write", "prepare"]

/-- The priority keyword list of `_extract_tasks_and_deadlines`. -/
def examKeywords : List String :=
  ["exam", "midterm", "final"]

/-- Per-line processing of `_extract_tasks_and_deadlines`: strip the line,
skip blanks, emit a task when an action verb occurs in the lowercased line.
`parse` is the date-parse oracle and `now` the current time in days; a parse
failure or a result more than one day in the past leaves `due_date` empty. -/
def lineTask (parse : String → Option Int) (now : Int) (line : String) : Option TaskRec :=
  let l := pyStrip line
  if l = "" then none
  else if taskVerbs.any (fun v => pyIn v (lower l)) then
    let due :=
      match parse l with
      | none => none
      | some d => if d < now - 1 then none else some d
    some { title := pyTake l 120, due_date := due, status := "todo",
           priority := if examKeywords.any (fun p => pyIn p (lower l)) then "high"
                       else "medium" }
  else none

/-- `_extract_tasks_and_deadlines(text)` from `main.py`, one pass over the
lines of `text`, emitting tasks in source order. -/
def _extract_tasks_and_deadlines (parse : String → Option Int) (now : Int)
    (text : String) : List TaskRec :=
  (splitlines text).filterMap (lineTask parse now)

/-- A task record as produced by the `plan` endpoint; `due_date` is a date,
modelled as an integer day number. -/
structure PlanTask where
  title : String
  due_date : Int
  status : String
  priority : String
deriving DecidableEq

/-- `per_day = max(1, int(len(objectives) / max(1, days)))` from the `plan`
endpoint (floor division of non-negative quantities). -/
def per_day (objectives : List String) (days : Int) : Nat :=
  max 1 (objectives.length / (max 1 days).toNat)

/-- The scheduling loop of the `plan` endpoint: objective `i` is due at
`start + min day_pointer (days - 1)`; the day pointer advances after every
`pd` objectives. -/
def planLoop (start : Int) (days : Int) (pd : Nat) :
    List String → Nat → Nat → List PlanTask
  | [], _, _ => []
  | obj :: rest, i, dp =>
    { title := obj,
      due_date := start + min (Int.ofNat dp) (days - 1),
      status := "todo", priority := "medium" } ::
    planLoop start days pd rest (i + 1) (if (i + 1) % pd = 0 then dp + 1 else dp)

/-- The `plan` endpoint from `main.py`: empty objectives fall back to three
generic ones, then objectives are distributed over `days` starting at the
current date `start`. -/
def plan (start : Int) (objectives : List String) (days : Int) : List PlanTask :=
  let objs :=
    if objectives = [] then ["Review notes", "Practice problems", "Revise key formulas"]
    else objectives
  planLoop start days (per_day objs days) objs 0 0

/-- Output of the `doubts` endpoint. -/
structure DoubtOut where
  steps : List String
  final_answer : String
deriving DecidableEq

/-- The fixed disclaimer of the `doubts` endpoint. -/
def doubtDisclaimer : String :=
  "This is a heuristic explanation. For precise solutions, consult course materials."

/-- The `doubts` endpoint from `main.py`: an optional context step (skipped
for an absent or empty context, mirroring Python truthiness), the restated
stripped question, and three static steps. -/
def doubts (question : String) (context : Option String) : DoubtOut :=
  let q := pyStrip question
  let ctxSteps :=
    match context with
    | some c => if c = "" then [] else ["Understand the context: " ++ pyTake c 200]
    | none => []
  { steps := ctxSteps ++
      ["Restate the question: " ++ q,
       "Identify knowns and unknowns",
       "Break into sub-problems and solve step-by-step",
       "Verify the result with a quick check or example"],
    final_answer := doubtDisclaimer }

/-- The `flashcards` endpoint from `main.py`: absent text defaults to the
empty string and a falsy count (`None` or `0`) defaults to 8, mirroring
`payload.count or 8`; one record is persisted per returned card. -/
def flashcards (text : Option String) (count : Option Int) : List Card :=
  let t := match text with | none => "" | some s => s
  let n : Int := match count with | none => 8 | some c => if c = 0 then 8 else c
  _generate_flashcards t n.toNat

/-! ## Helper lemmas -/

theorem pyTake_length (s : String) (k : Nat) : (pyTake s k).length = min k s.length := by
  show (s.data.take k).length = min k s.length
  rw [List.length_take]
  rfl

theorem length_pos_of_ne_empty {s : String} (h : s ≠ "") : 0 < s.length := by
  cases s with
  | mk data =>
    cases data with
    | nil => exact absurd rfl h
    | cons c cs => simp [String.length]

theorem ne_empty_of_length_pos {s : String} (h : 0 < s.length) : s ≠ "" := by
  intro he
  rw [he] at h
  exact absurd h (by decide)

theorem card_of_parts {subject description : String} (hd : description ≠ "") :
    pyTake ("What is " ++ subject ++ "?") 180 ≠ "" ∧ pyTake description 300 ≠ "" := by
  constructor
  · apply ne_empty_of_length_pos
    rw [pyTake_length, String.length_append, String.length_append]
    have h8 : ("What is " : String).length = 8 := rfl
    have h1 : ("?" : String).length = 1 := rfl
    omega
  · apply ne_empty_of_length_pos
    rw [pyTake_length]
    have := length_pos_of_ne_empty hd
    omega

theorem sentenceCard_nonempty {s : String} {c : Card} (h : sentenceCard s = some c) :
    c.question ≠ "" ∧ c.answer ≠ "" := by
  simp only [sentenceCard] at h
  split_ifs at h with h1 h2 h3 h4
  · injection h with h
    subst h
    exact card_of_parts h3.2
  · injection h with h
    subst h
    exact card_of_parts h4.2

theorem cardStep_nonempty {cards : List Card} {s : String}
    (h : ∀ c ∈ cards, c.question ≠ "" ∧ c.answer ≠ "") :
    ∀ c ∈ cardStep cards s, c.question ≠ "" ∧ c.answer ≠ "" := by
  unfold cardStep
  cases hsc : sentenceCard s with
  | none => simpa using h
  | some card =>
    intro c hc
    rcases List.mem_append.mp hc with h1 | h1
    · exact h c h1
    · rw [List.mem_singleton] at h1
      subst h1
      exact sentenceCard_nonempty hsc

theorem cardLoop_nonempty (n : Nat) (sentences : List String) :
    ∀ acc : List Card, (∀ c ∈ acc, c.question ≠ "" ∧ c.answer ≠ "") →
      ∀ c ∈ cardLoop n sentences acc, c.question ≠ "" ∧ c.answer ≠ "" := by
  induction sentences with
  | nil =>
    intro acc h
    rw [cardLoop]
    exact h
  | cons s rest ih =>
    intro acc h
    simp only [cardLoop]
    split
    · exact cardStep_nonempty h
    · exact ih _ (cardStep_nonempty h)

theorem mkFiller_nonempty (i : Nat) :
    (mkFiller i).question ≠ "" ∧ (mkFiller i).answer ≠ "" := by
  constructor
  · apply ne_empty_of_length_pos
    show 0 < ("Key point " ++ toString (i + 1) ++ "?").length
    rw [String.length_append, String.length_append]
    have h10 : ("Key point " : String).length = 10 := rfl
    omega
  · show ("Review your notes for this topic." : String) ≠ ""
    decide

theorem generate_flashcards_length (text : String) (n : Nat) :
    (_generate_flashcards text n).length = n := by
  simp only [_generate_flashcards]
  by_cases h : (cardLoop n (splitSentences text) []).length < n
  · simp only [h, if_true, List.length_take, List.length_append, List.length_map,
      List.length_range]
    omega
  · simp only [h, if_false, List.length_take]
    omega

theorem generate_flashcards_nonempty (text : String) (n : Nat) :
    ∀ c ∈ _generate_flashcards text n, c.question ≠ "" ∧ c.answer ≠ "" := by
  intro c hc
  simp only [_generate_flashcards] at hc
  have hc2 := List.take_subset _ _ hc
  have hloop := cardLoop_nonempty n (splitSentences text) [] (by simp)
  split at hc2
  · rcases List.mem_append.mp hc2 with h1 | h1
    · exact hloop c h1
    · obtain ⟨i, -, rfl⟩ := List.mem_map.mp h1
      exact mkFiller_nonempty i
  · exact hloop c hc2

/-! ## Claim theorems -/

/-- Claim C1: for every input text and every requested count `n ≥ 0`,
`_generate_flashcards` returns exactly `n` cards, and every returned card has
a non-empty question and a non-empty answer (filler cards pad the list). -/
theorem c1_flashcards_exact (text : String) (n : Nat) :
    (_generate_flashcards text n).length = n ∧
    ∀ c ∈ _generate_flashcards text n, c.question ≠ "" ∧ c.answer ≠ "" :=
  ⟨generate_flashcards_length text n, generate_flashcards_nonempty text n⟩

/-- Claim C4: for every input text and every `max_sentences ≥ 0`, the
summarizer's `key_points` has length at most `max_sentences` and every element
has length at most 200 characters. -/
theorem c4_summary_bounds (t : String) (maxS : Nat) :
    (_simple_summarize t maxS).key_points.length ≤ maxS ∧
    ∀ p ∈ (_simple_summarize t maxS).key_points, p.length ≤ 200 := by
  constructor
  · simp only [_simple_summarize, List.length_map, List.length_take]
    exact Nat.min_le_left _ _
  · intro p hp
    simp only [_simple_summarize, List.mem_map] at hp
    obtain ⟨q, hq, rfl⟩ := hp
    by_cases h : q.length ≤ 200
    · rw [if_pos h]
      exact h
    · rw [if_neg h, String.length_append, pyTake_length]
      have h3 : ("..." : String).length = 3 := rfl
      omega

/-- Claim C9: for every input text, the summarizer's `reading_time_min` equals
`max 1 (word_count / 180)` where words are whitespace-separated and division
is floor division; in particular empty text yields 1. -/
theorem c9_reading_time (t : String) (maxS : Nat) :
    (_simple_summarize t maxS).reading_time_min = max 1 ((pySplit t).length / 180) ∧
    (_simple_summarize "" maxS).reading_time_min = 1 := by
  refine ⟨rfl, ?_⟩
  show max 1 ((pySplit "").length / 180) = 1
  decide

/-- Claim C10: at the flashcards endpoint, a requested count of 0 is treated
like an absent count and coerced to the default 8: exactly 8 cards are
generated (and hence 8 records persisted, one per card), not 0. -/
theorem c10_count_zero (text : Option String) :
    flashcards text (some 0) = flashcards text none ∧
    (flashcards text (some 0)).length = 8 := by
  refine ⟨rfl, ?_⟩
  cases text with
  | none => exact generate_flashcards_length "" 8
  | some s => exact generate_flashcards_length s 8

theorem planLoop_length (start days : Int) (pd : Nat) :
    ∀ (objs : List String) (i dp : Nat),
      (planLoop start days pd objs i dp).length = objs.length := by
  intro objs
  induction objs with
  | nil => intro i dp; rfl
  | cons obj rest ih =>
    intro i dp
    simp only [planLoop, List.length_cons, ih]

theorem planLoop_due_le (start days : Int) (pd : Nat) :
    ∀ (objs : List String) (i dp : Nat), ∀ t ∈ planLoop start days pd objs i dp,
      t.due_date ≤ start + (days - 1) := by
  intro objs
  induction objs with
  | nil => intro i dp t ht; simp [planLoop] at ht
  | cons obj rest ih =>
    intro i dp t ht
    rw [planLoop] at ht
    rcases List.mem_cons.mp ht with h | h
    · subst h
      exact add_le_add_left (min_le_right _ _) start
    · exact ih _ _ t h

theorem planLoop_due_ge (start days : Int) (pd : Nat) :
    ∀ (objs : List String) (i dp dp0 : Nat), dp0 ≤ dp →
      ∀ t ∈ planLoop start days pd objs i dp,
        start + min (Int.ofNat dp0) (days - 1) ≤ t.due_date := by
  intro objs
  induction objs with
  | nil => intro i dp dp0 hle t ht; simp [planLoop] at ht
  | cons obj rest ih =>
    intro i dp dp0 hle t ht
    rw [planLoop] at ht
    rcases List.mem_cons.mp ht with h | h
    · subst h
      exact add_le_add_left (min_le_min (Int.ofNat_le.mpr hle) le_rfl) start
    · refine ih (i + 1) _ dp0 ?_ t h
      split <;> omega

theorem planLoop_pairwise (start days : Int) (pd : Nat) :
    ∀ (objs : List String) (i dp : Nat),
      ((planLoop start days pd objs i dp).map PlanTask.due_date).Pairwise (· ≤ ·) := by
  intro objs
  induction objs with
  | nil => intro i dp; simp [planLoop]
  | cons obj rest ih =>
    intro i dp
    rw [planLoop, List.map_cons]
    refine List.Pairwise.cons ?_ (ih _ _)
    intro b hb
    obtain ⟨t, ht, rfl⟩ := List.mem_map.mp hb
    exact planLoop_due_ge start days pd rest (i + 1) _ dp (by split <;> omega) t ht

/-- Claim C2 (corrected): with 3 objectives and `days = 3` the plan builder
assigns due dates `today`, `today + 1`, `today + 2` (the day pointer advances
after every objective since `per_day = 1`), not `today, today, today + 1` as
claimed. -/
theorem c2_plan_due_dates (start : Int) (o1 o2 o3 : String) :
    (plan start [o1, o2, o3] 3).map PlanTask.due_date = [start, start + 1, start + 2] := by
  have hne : ([o1, o2, o3] : List String) ≠ [] := by simp
  have hpd : per_day [o1, o2, o3] 3 = 1 := by
    have h3 : (max 1 (3 : Int)).toNat = 3 := rfl
    show max 1 (([o1, o2, o3] : List String).length / (max 1 (3 : Int)).toNat) = 1
    rw [h3]
    norm_num
  simp only [plan, if_neg hne, hpd]
  simp [planLoop]

/-- Claim C2 counterexample: at `today = 0` the produced due dates are
`[0, 1, 2]`, which differs from the claimed `[0, 0, 1]`. -/
theorem c2_counterexample :
    (plan 0 ["o1", "o2", "o3"] 3).map PlanTask.due_date = [0, 1, 2] ∧
    ([0, 1, 2] : List Int) ≠ [0, 0, 1] := by decide

/-- Claim C5: for a non-empty objectives list and `days ≥ 1`, the plan builder
emits one task per objective (in input order), the due dates are monotonically
non-decreasing, and no due date exceeds `today + days - 1`. -/
theorem c5_plan_invariants (start days : Int) (objectives : List String)
    (h1 : objectives ≠ []) (_h2 : 1 ≤ days) :
    (plan start objectives days).length = objectives.length ∧
    ((plan start objectives days).map PlanTask.due_date).Pairwise (· ≤ ·) ∧
    ∀ t ∈ plan start objectives days, t.due_date ≤ start + days - 1 := by
  simp only [plan, if_neg h1]
  refine ⟨planLoop_length start days _ objectives 0 0,
    planLoop_pairwise start days _ objectives 0 0, ?_⟩
  intro t ht
  have := planLoop_due_le start days _ objectives 0 0 t ht
  omega

/-- Witness for C5 at a concrete input: objectives `["x", "y", "z"]`,
`days = 2`, `today = 0`. -/
theorem c5_plan_invariants_witness :
    (["x", "y", "z"] : List String) ≠ [] ∧ (1 : Int) ≤ 2 ∧
    ((plan 0 ["x", "y", "z"] 2).length = (["x", "y", "z"] : List String).length ∧
     ((plan 0 ["x", "y", "z"] 2).map PlanTask.due_date).Pairwise (· ≤ ·) ∧
     ∀ t ∈ plan 0 ["x", "y", "z"] 2, t.due_date ≤ 0 + 2 - 1) :=
  ⟨by decide, by decide, c5_plan_invariants 0 2 ["x", "y", "z"] (by decide) (by decide)⟩

theorem noteStep_length (acc : List String) (l : String) :
    (noteStep acc l).length ≤ acc.length + 1 := by
  unfold noteStep
  split_ifs <;> simp

theorem notesLoop_length (maxP : Nat) :
    ∀ lines acc : List String, acc.length < maxP →
      (notesLoop maxP lines acc).length ≤ maxP := by
  intro lines
  induction lines with
  | nil =>
    intro acc h
    rw [notesLoop]
    omega
  | cons line rest ih =>
    intro acc h
    simp only [notesLoop]
    by_cases hb : stripChars [' ', '-', '•', '\t'] line = ""
    · rw [if_pos hb]
      exact ih acc h
    · rw [if_neg hb]
      have hstep := noteStep_length acc (stripChars [' ', '-', '•', '\t'] line)
      by_cases hm : maxP ≤ (noteStep acc (stripChars [' ', '-', '•', '\t'] line)).length
      · rw [if_pos hm]
        omega
      · rw [if_neg hm]
        exact ih _ (by omega)

theorem make_exam_notes_length (text : String) (maxP : Nat) (h : 1 ≤ maxP) :
    (_make_exam_notes text maxP).length ≤ maxP := by
  simp only [_make_exam_notes, List.length_map]
  split
  · rw [List.length_take]
    omega
  · exact notesLoop_length maxP _ [] (by simpa using h)

theorem make_exam_notes_strlen (text : String) (maxP : Nat) :
    ∀ b ∈ _make_exam_notes text maxP, b.length ≤ 183 := by
  intro b hb
  simp only [_make_exam_notes, List.mem_map] at hb
  obtain ⟨q, hq, rfl⟩ := hb
  have h3 : ("..." : String).length = 3 := rfl
  have h0 : ("" : String).length = 0 := rfl
  by_cases h : 180 < q.length
  · rw [String.length_append, pyTake_length, if_pos h, h3]
    omega
  · rw [String.length_append, pyTake_length, if_neg h, h0]
    omega

/-- Claim C3 (amended): every string returned by the note extractor has length
at most 183 — a candidate longer than 180 is cut to 180 characters and a
3-character ellipsis is appended, so truncated bullets have length 183, not
180 — and for `max_points ≥ 1` the list has length at most `max_points`. -/
theorem c3_notes_bounds (text : String) (maxP : Nat) (h : 1 ≤ maxP) :
    (_make_exam_notes text maxP).length ≤ maxP ∧
    ∀ b ∈ _make_exam_notes text maxP, b.length ≤ 183 :=
  ⟨make_exam_notes_length text maxP h, make_exam_notes_strlen text maxP⟩

set_option maxRecDepth 4000 in
/-- Claim C3 counterexample: a 181-character keeper line yields a bullet of
length 183 (180 characters plus the 3-character ellipsis), beyond the claimed
180-character bound. -/
theorem c3_counterexample :
    ¬ ∀ b ∈ _make_exam_notes (String.mk (List.replicate 181 'a')) 10, b.length ≤ 180 := by
  decide

/-- Witness for C3 at the endpoint's `max_points = 10`. -/
theorem c3_notes_bounds_witness :
    1 ≤ 10 ∧
    ((_make_exam_notes "law of motion" 10).length ≤ 10 ∧
     ∀ b ∈ _make_exam_notes "law of motion" 10, b.length ≤ 183) :=
  ⟨by decide, c3_notes_bounds "law of motion" 10 (by decide)⟩

theorem restate_not_context (s : String) :
    strStarts "Understand the context: " ("Restate the question: " ++ s) = false := rfl

/-- Claim C8 (amended): with no context the doubt explainer returns exactly 4
steps, none of which is a context step; the first step restates the
whitespace-stripped question (the code strips it, so a question with
surrounding whitespace is not restated verbatim); and the final answer is the
fixed disclaimer. -/
theorem c8_doubt_steps (q : String) :
    (doubts q none).steps.length = 4 ∧
    (∀ s ∈ (doubts q none).steps, strStarts "Understand the context: " s = false) ∧
    (doubts q none).steps.head? = some ("Restate the question: " ++ pyStrip q) ∧
    (doubts q none).final_answer =
      "This is a heuristic explanation. For precise solutions, consult course materials." := by
  refine ⟨rfl, ?_, rfl, rfl⟩
  intro s hs
  simp only [doubts, List.nil_append, List.mem_cons, List.not_mem_nil, or_false] at hs
  rcases hs with rfl | rfl | rfl | rfl
  · exact restate_not_context (pyStrip q)
  · rfl
  · rfl
  · rfl

/-- Claim C8 counterexample: for the question `" Why?"` the first step is not
the verbatim question prefixed with `"Restate the question: "`. -/
theorem c8_counterexample :
    (doubts " Why?" none).steps.head? ≠ some ("Restate the question: " ++ " Why?") := by
  decide

/-- Claim C6: for every emitted task line, if the date parse fails or yields a
date more than 1 day in the past, the task's due date is absent; and whether a
task is emitted for a line does not depend on the parser at all (no task is
dropped for a date failure). -/
theorem c6_stale_date_absent (parse : String → Option Int) (now : Int)
    (line : String) (t : TaskRec)
    (hemit : lineTask parse now line = some t)
    (hfail : parse (pyStrip line) = none ∨
      ∃ d, parse (pyStrip line) = some d ∧ d < now - 1) :
    t.due_date = none ∧
    ∀ parse2 : String → Option Int, (lineTask parse2 now line).isSome := by
  simp only [lineTask] at hemit
  by_cases h1 : pyStrip line = ""
  · rw [if_pos h1] at hemit
    exact absurd hemit (by simp)
  · rw [if_neg h1] at hemit
    by_cases h2 : taskVerbs.any (fun v => pyIn v (lower (pyStrip line))) = true
    · rw [if_pos h2] at hemit
      injection hemit with hemit
      constructor
      · rw [← hemit]
        rcases hfail with hf | ⟨d, hd, hlt⟩
        · show (match parse (pyStrip line) with
                | none => none
                | some d => if d < now - 1 then none else some d) = none
          rw [hf]
        · show (match parse (pyStrip line) with
                | none => none
                | some d => if d < now - 1 then none else some d) = none
          rw [hd]
          show (if d < now - 1 then none else some d) = none
          rw [if_pos hlt]
      · intro parse2
        simp only [lineTask]
        rw [if_neg h1, if_pos h2]
        rfl
    · rw [if_neg h2] at hemit
      exact absurd hemit (by simp)

/-- Witness for C6: a parser returning a date 5 days in the past, `now = 0`,
and the line `"submit essay"`; the task is emitted with no due date, and a
failing parser still emits it. -/
theorem c6_stale_date_absent_witness :
    lineTask (fun _ : String => some (-5 : Int)) 0 "submit essay" =
      some ⟨"submit essay", none, "todo", "medium"⟩ ∧
    (⟨"submit essay", none, "todo", "medium"⟩ : TaskRec).due_date = none ∧
    (lineTask (fun _ : String => (none : Option Int)) 0 "submit essay").isSome := by
  have hemit : lineTask (fun _ : String => some (-5 : Int)) 0 "submit essay" =
      some ⟨"submit essay", none, "todo", "medium"⟩ := by decide
  have h := c6_stale_date_absent (fun _ : String => some (-5 : Int)) 0 "submit essay"
    ⟨"submit essay", none, "todo", "medium"⟩ hemit (Or.inr ⟨-5, rfl, by decide⟩)
  exact ⟨hemit, h.1, h.2 (fun _ => none)⟩

/-- Claim C7 (amended): every line whose stripped form is non-blank and
contains an action verb yields exactly one task whose title is the stripped
line truncated to 120 characters (the code strips the line first, so the raw
line is not used verbatim), status `"todo"`, and priority `"high"` iff the
line mentions an exam keyword; the extractor processes lines independently in
source order. -/
theorem c7_task_line (parse : String → Option Int) (now : Int) (line : String)
    (h1 : pyStrip line ≠ "")
    (h2 : taskVerbs.any (fun v => pyIn v (lower (pyStrip line))) = true) :
    ∃ t, lineTask parse now line = some t ∧
      t.title = pyTake (pyStrip line) 120 ∧
      t.status = "todo" ∧
      (t.priority = "high" ↔
        examKeywords.any (fun p => pyIn p (lower (pyStrip line))) = true) ∧
      ∀ text : String, _extract_tasks_and_deadlines parse now text =
        (splitlines text).filterMap (lineTask parse now) := by
  have hsome : lineTask parse now line =
      some { title := pyTake (pyStrip line) 120,
             due_date :=
               match parse (pyStrip line) with
               | none => none
               | some d => if d < now - 1 then none else some d,
             status := "todo",
             priority :=
               if examKeywords.any (fun p => pyIn p (lower (pyStrip line))) then "high"
               else "medium" } := by
    simp only [lineTask]
    rw [if_neg h1, if_pos h2]
  refine ⟨_, hsome, rfl, rfl, ?_, fun _ => rfl⟩
  by_cases he : examKeywords.any (fun p => pyIn p (lower (pyStrip line))) = true
  · show (if examKeywords.any (fun p => pyIn p (lower (pyStrip line))) then "high"
      else "medium") = "high" ↔ _
    rw [if_pos he]
    simp [he]
  · show (if examKeywords.any (fun p => pyIn p (lower (pyStrip line))) then "high"
      else "medium") = "high" ↔ _
    rw [if_neg he]
    constructor
    · intro hmed
      exact absurd hmed (by decide)
    · intro hx
      exact absurd hx he

/-- Claim C7 counterexample: for the single line `" submit essay"` (leading
space) the emitted title is the stripped line, not the raw line truncated to
120 characters. -/
theorem c7_counterexample :
    (_extract_tasks_and_deadlines (fun _ => none) 0 " submit essay").map TaskRec.title =
      ["submit essay"] ∧
    "submit essay" ≠ pyTake " submit essay" 120 := by
  decide

/-- Witness for C7 at the line `"Review for the exam"` with a failing parser. -/
theorem c7_task_line_witness :
    pyStrip "Review for the exam" ≠ "" ∧
    taskVerbs.any (fun v => pyIn v (lower (pyStrip "Review for the exam"))) = true ∧
    (lineTask (fun _ : String => (none : Option Int)) 0 "Review for the exam").isSome := by
  refine ⟨by decide, by decide, ?_⟩
  obtain ⟨t, ht, -, -, -, -⟩ := c7_task_line (fun _ : String => (none : Option Int)) 0
    "Review for the exam" (by decide) (by decide)
  rw [ht]
  rfl
